import Mathlib

/-!
Shallow embedding of the statistics engine of BioAmplify-Analytics
(`src/utils/statistics.py` and the pairwise-comparison logic of
`src/routes.py`), together with theorems settling the specification
claims about it.

Numeric model: Python floats are modelled by exact arithmetic; ratios
and comparisons on inputs live in `ℚ` (or `ℤ`), square roots and the
abstract normal quantile live in `ℝ`.  The quantile
`scipy.stats.norm.ppf((1 + confidence) / 2)` is an external library
call, so it is kept as an explicit parameter `z : ℝ` throughout; for
any confidence level in [0, 1) the true quantile satisfies `0 ≤ z`.
Python raising an exception is modelled by returning `Except.error`.
`Real.sqrt` is total while `math.sqrt` raises on negative arguments;
on every input appearing in the theorems below the square-root
arguments are nonnegative, so the two agree there.
-/

namespace BioAmplify

/-- Failure values observed from the Python code: `ValueError msg` for an
explicit `raise ValueError(msg)`, and `UnboundLocalError name` for the
runtime failure of reading a local variable that was never assigned. -/
inductive PyError
  | valueError (msg : String)
  | unboundLocalError (name : String)
  deriving DecidableEq

/-! ## `src/utils/statistics.py`, lines 68-79: the nested `wilson_ci` helper -/

/-- Wilson score confidence interval, `wilson_ci(x, n)` nested inside
`calculate_diagnostic_stats` (statistics.py lines 68-79), with the normal
quantile `z = stats.norm.ppf((1 + conf_level) / 2)` as parameter. -/
noncomputable def wilson_ci (z : ℝ) (x n : ℤ) : ℝ × ℝ :=
  if n = 0 then (0, 0)
  else
    let p : ℝ := (x : ℝ) / (n : ℝ)
    let center := (p + z * z / (2 * n)) / (1 + z * z / n)
    let margin := z * Real.sqrt ((p * (1 - p) + z * z / (4 * n)) / n) / (1 + z * z / n)
    (max 0 (center - margin), min 1 (center + margin))

/-- One proportion entry of the result dictionary of
`calculate_diagnostic_stats`: value, percentage, and Wilson CI bounds. -/
structure Metric where
  value : ℚ
  percentage : ℚ
  ci_lower : ℝ
  ci_upper : ℝ

/-- Altman-scale interpretation used identically at statistics.py
lines 112-121 and lines 238-248. -/
def interpret_kappa (k : ℚ) : String :=
  if k < 20 / 100 then "Poor agreement"
  else if k < 40 / 100 then "Fair agreement"
  else if k < 60 / 100 then "Moderate agreement"
  else if k < 80 / 100 then "Good agreement"
  else "Very good agreement"

/-- The dictionary returned by `calculate_diagnostic_stats`
(statistics.py lines 123-173).  `lr_positive`, `lr_negative` and
`diagnostic_odds_ratio` are extended reals because the code produces
`float('inf')` on zero denominators. -/
structure DiagStats where
  sensitivity : Metric
  specificity : Metric
  ppv : Metric
  npv : Metric
  accuracy : Metric
  prevalence_value : ℚ
  prevalence_percentage : ℚ
  f1_score : ℚ
  mcc : ℝ
  lr_positive : EReal
  lr_negative : EReal
  diagnostic_odds_ratio : EReal
  kappa_value : ℚ
  kappa_ci_lower : ℝ
  kappa_ci_upper : ℝ
  kappa_interpretation : String
  sample_size : ℤ
  confidence_level : ℚ

/-- Embedding of `calculate_diagnostic_stats(tp, fp, tn, fn, confidence)`
(statistics.py lines 6-173).  Counts are `ℤ` (Python ints; the code never
checks their sign).  `z` models `stats.norm.ppf((1 + confidence) / 2)`.
The only `raise` in the function is the all-zero check at lines 22-23. -/
noncomputable def calculate_diagnostic_stats (confidence : ℚ) (z : ℝ) (tp fp tn fn : ℤ) :
    Except PyError DiagStats :=
  if tp + fp + tn + fn = 0 then
    .error (.valueError "All confusion matrix values cannot be zero")
  else
    let total := tp + fp + tn + fn
    let sensitivity : ℚ := if tp + fn > 0 then (tp : ℚ) / ((tp : ℚ) + (fn : ℚ)) else 0
    let specificity : ℚ := if tn + fp > 0 then (tn : ℚ) / ((tn : ℚ) + (fp : ℚ)) else 0
    let ppv : ℚ := if tp + fp > 0 then (tp : ℚ) / ((tp : ℚ) + (fp : ℚ)) else 0
    let npv : ℚ := if tn + fn > 0 then (tn : ℚ) / ((tn : ℚ) + (fn : ℚ)) else 0
    let accuracy : ℚ := ((tp : ℚ) + (tn : ℚ)) / (total : ℚ)
    let prevalence : ℚ := ((tp : ℚ) + (fn : ℚ)) / (total : ℚ)
    let fpr : ℚ := if fp + tn > 0 then (fp : ℚ) / ((fp : ℚ) + (tn : ℚ)) else 0
    let fnr : ℚ := if fn + tp > 0 then (fn : ℚ) / ((fn : ℚ) + (tp : ℚ)) else 0
    let lr_positive : EReal := if fpr > 0 then (((sensitivity / fpr : ℚ) : ℝ) : EReal) else ⊤
    let lr_negative : EReal :=
      if specificity > 0 then (((fnr / specificity : ℚ) : ℝ) : EReal) else ⊤
    let dor : EReal := if 0 < lr_negative then lr_positive / lr_negative else ⊤
    let f1_score : ℚ :=
      if ppv + sensitivity > 0 then 2 * (ppv * sensitivity) / (ppv + sensitivity) else 0
    let mcc_numerator : ℤ := tp * tn - fp * fn
    let mcc_denominator : ℝ :=
      Real.sqrt (((tp + fp) * (tp + fn) * (tn + fp) * (tn + fn) : ℤ) : ℝ)
    let mcc : ℝ := if mcc_denominator > 0 then (mcc_numerator : ℝ) / mcc_denominator else 0
    let sensitivity_ci := wilson_ci z tp (tp + fn)
    let specificity_ci := wilson_ci z tn (tn + fp)
    let ppv_ci := wilson_ci z tp (tp + fp)
    let npv_ci := wilson_ci z tn (tn + fn)
    let accuracy_ci := wilson_ci z (tp + tn) total
    -- single-matrix kappa proxy, statistics.py lines 88-121
    let total_samples := tp + fp + tn + fn
    let observed_agreement : ℚ := ((tp : ℚ) + (tn : ℚ)) / (total_samples : ℚ)
    let expected_agreement : ℚ :=
      (((tp : ℚ) + (fn : ℚ)) * ((tp : ℚ) + (fp : ℚ)) +
        ((tn : ℚ) + (fp : ℚ)) * ((tn : ℚ) + (fn : ℚ))) /
        ((total_samples : ℚ) * (total_samples : ℚ))
    let kappa_value : ℚ :=
      if total_samples > 0 ∧ expected_agreement < 1 then
        (observed_agreement - expected_agreement) / (1 - expected_agreement)
      else 0
    let se_kappa : ℝ :=
      Real.sqrt ((expected_agreement : ℝ) /
        ((total_samples : ℝ) * ((1 : ℝ) - (expected_agreement : ℝ)) ^ 2))
    let kappa_ci : ℝ × ℝ :=
      if total_samples > 0 ∧ expected_agreement < 1 then
        (max (-1) ((kappa_value : ℝ) - z * se_kappa),
          min 1 ((kappa_value : ℝ) + z * se_kappa))
      else (0, 0)
    let kappa_interpretation : String :=
      if total_samples > 0 ∧ expected_agreement < 1 then interpret_kappa kappa_value
      else "Not calculated"
    .ok {
      sensitivity := {
        value := sensitivity
        percentage := sensitivity * 100
        ci_lower := sensitivity_ci.1
        ci_upper := sensitivity_ci.2 }
      specificity := {
        value := specificity
        percentage := specificity * 100
        ci_lower := specificity_ci.1
        ci_upper := specificity_ci.2 }
      ppv := {
        value := ppv
        percentage := ppv * 100
        ci_lower := ppv_ci.1
        ci_upper := ppv_ci.2 }
      npv := {
        value := npv
        percentage := npv * 100
        ci_lower := npv_ci.1
        ci_upper := npv_ci.2 }
      accuracy := {
        value := accuracy
        percentage := accuracy * 100
        ci_lower := accuracy_ci.1
        ci_upper := accuracy_ci.2 }
      prevalence_value := prevalence
      prevalence_percentage := prevalence * 100
      f1_score := f1_score
      mcc := mcc
      lr_positive := lr_positive
      lr_negative := lr_negative
      diagnostic_odds_ratio := dor
      kappa_value := kappa_value
      kappa_ci_lower := kappa_ci.1
      kappa_ci_upper := kappa_ci.2
      kappa_interpretation := kappa_interpretation
      sample_size := total
      confidence_level := confidence }

/-! ## `src/utils/statistics.py`, lines 175-262: `calculate_cohens_kappa` -/

/-- Entry `contingency[i, j] = np.sum((rater1 == cat1) & (rater2 == cat2))`
of the contingency matrix (statistics.py lines 209-212): the number of
positions where rater1 shows `c1` and rater2 shows `c2`. -/
def contingency (r1 r2 : List ℤ) (c1 c2 : ℤ) : ℕ :=
  (r1.zip r2).countP (fun q => decide (q.1 = c1) && decide (q.2 = c2))

/-- Union of the observed category labels,
`categories = np.unique(np.concatenate([rater1, rater2]))`
(statistics.py line 205). -/
def categories (r1 r2 : List ℤ) : Finset ℤ := (r1 ++ r2).toFinset

/-- Observed agreement `p_obs = np.trace(contingency) / n`
(statistics.py line 215). -/
def p_obs (r1 r2 : List ℤ) : ℚ :=
  (∑ c ∈ categories r1 r2, (contingency r1 r2 c c : ℚ)) / (r1.length : ℚ)

/-- Row marginal probability of category `c`:
`row_marginals = np.sum(contingency, axis=1) / n` (statistics.py line 217). -/
def row_marginal (r1 r2 : List ℤ) (c : ℤ) : ℚ :=
  (∑ j ∈ categories r1 r2, (contingency r1 r2 c j : ℚ)) / (r1.length : ℚ)

/-- Column marginal probability of category `c`:
`col_marginals = np.sum(contingency, axis=0) / n` (statistics.py line 218). -/
def col_marginal (r1 r2 : List ℤ) (c : ℤ) : ℚ :=
  (∑ i ∈ categories r1 r2, (contingency r1 r2 i c : ℚ)) / (r1.length : ℚ)

/-- Expected agreement `p_exp = np.sum(row_marginals * col_marginals)`
(statistics.py line 219). -/
def p_exp (r1 r2 : List ℤ) : ℚ :=
  ∑ c ∈ categories r1 r2, row_marginal r1 r2 c * col_marginal r1 r2 c

/-- Modelled from the spec: `sklearn.metrics.cohen_kappa_score(rater1, rater2)`
(statistics.py line 199) is an external library call not in this repository;
the spec describes it as the standard Cohen formula
`kappa = (p_obs - p_exp) / (1 - p_exp)` over the union of observed labels. -/
def cohen_kappa_score (r1 r2 : List ℤ) : ℚ :=
  (p_obs r1 r2 - p_exp r1 r2) / (1 - p_exp r1 r2)

/-- The dictionary returned by `calculate_cohens_kappa`
(statistics.py lines 250-262). -/
structure KappaResult where
  kappa : ℚ
  ci_lower : ℝ
  ci_upper : ℝ
  confidence_level : ℚ
  standard_error : ℝ
  interpretation : String
  sample_size : ℕ
  observed_agreement : ℚ
  expected_agreement : ℚ

/-- The non-failing body of `calculate_cohens_kappa`
(statistics.py lines 194-262): kappa, simplified Fleiss standard error
(guarded at `p_exp == 1`, lines 223-227), the CI `kappa ± z·SE` with the
upper bound capped at 1.0 (lines 229-235), and the Altman interpretation. -/
noncomputable def kappaFrom (confidence : ℚ) (z : ℝ) (r1 r2 : List ℤ) : KappaResult :=
  let kappa := cohen_kappa_score r1 r2
  let n := r1.length
  let pe := p_exp r1 r2
  let se_kappa : ℝ :=
    if pe = 1 then 0
    else Real.sqrt ((pe : ℝ) / ((n : ℝ) * ((1 : ℝ) - (pe : ℝ)) ^ 2))
  let ci_lower : ℝ := (kappa : ℝ) - z * se_kappa
  let ci_upper : ℝ := min 1 ((kappa : ℝ) + z * se_kappa)
  { kappa := kappa
    ci_lower := ci_lower
    ci_upper := ci_upper
    confidence_level := confidence
    standard_error := se_kappa
    interpretation := interpret_kappa kappa
    sample_size := n
    observed_agreement := p_obs r1 r2
    expected_agreement := pe }

/-- Embedding of `calculate_cohens_kappa(rater1, rater2, confidence)`
(statistics.py lines 175-262), with its two validation raises at
lines 188-192.  `z` models `stats.norm.ppf((1 + confidence) / 2)`. -/
noncomputable def calculate_cohens_kappa (confidence : ℚ) (z : ℝ) (r1 r2 : List ℤ) :
    Except PyError KappaResult :=
  if r1.length ≠ r2.length then
    .error (.valueError "Rater arrays must have the same length")
  else if r1.length = 0 then
    .error (.valueError "Rater arrays cannot be empty")
  else
    .ok (kappaFrom confidence z r1 r2)

/-! ## `src/utils/statistics.py`, lines 264-316:
`calculate_multiple_comparisons_correction` -/

/-- Indices of `ps` sorted by ascending p-value, `np.argsort(p_array)`
(statistics.py lines 284, 298). -/
def argsort (ps : List ℚ) : List ℕ :=
  (List.range ps.length).mergeSort (fun i j => decide (ps.getD i 0 ≤ ps.getD j 0))

/-- Running maxima with accumulator: the forward monotonicity pass of the
Holm branch (statistics.py lines 291-294). -/
def cummaxFrom (m : ℚ) : List ℚ → List ℚ
  | [] => []
  | x :: xs => max m x :: cummaxFrom (max m x) xs

/-- Running maxima of a list, first element kept as is. -/
def cummax : List ℚ → List ℚ
  | [] => []
  | x :: xs => x :: cummaxFrom x xs

/-- Running minima with accumulator: used (on the reversed list) for the
backward monotonicity pass of the Benjamini-Hochberg branch
(statistics.py lines 305-308). -/
def cumminFrom (m : ℚ) : List ℚ → List ℚ
  | [] => []
  | x :: xs => min m x :: cumminFrom (min m x) xs

/-- Running minima of a list, first element kept as is. -/
def cummin : List ℚ → List ℚ
  | [] => []
  | x :: xs => x :: cumminFrom x xs

/-- Writes value `vals[i]` at position `idxs[i]` of an `n`-vector, modelling
the numpy fancy assignment `corrected[sorted_indices] = sorted_corrected`. -/
def scatter (n : ℕ) (idxs : List ℕ) (vals : List ℚ) : List ℚ :=
  (List.range n).map fun i => ((idxs.zip vals).lookup i).getD 0

/-- The dictionary returned by `calculate_multiple_comparisons_correction`
(statistics.py lines 310-316). -/
structure CorrectionResult where
  original_p_values : List ℚ
  corrected_p_values : List ℚ
  method : String
  significant_at_05 : List Bool
  significant_at_01 : List Bool
  deriving DecidableEq

/-- Embedding of `calculate_multiple_comparisons_correction(p_values, method)`
(statistics.py lines 264-316).  The `if/elif/elif` chain has no `else`
branch: for any unknown method the local `corrected` is never assigned and
the final `corrected.tolist()` raises `UnboundLocalError` - modelled by the
`none` case below. -/
def calculate_multiple_comparisons_correction (p_values : List ℚ) (method : String) :
    Except PyError CorrectionResult :=
  let n := p_values.length
  let correctedOpt : Option (List ℚ) :=
    if method = "bonferroni" then
      some (p_values.map fun p => min (p * (n : ℚ)) 1)
    else if method = "holm" then
      let sorted_indices := argsort p_values
      let base := sorted_indices.enum.map
        (fun q => min 1 (p_values.getD q.2 0 * ((n - q.1 : ℕ) : ℚ)))
      some (scatter n sorted_indices (cummax base))
    else if method = "fdr_bh" then
      let sorted_indices := argsort p_values
      let base := sorted_indices.enum.map
        (fun q => min 1 (p_values.getD q.2 0 * (n : ℚ) / ((q.1 : ℚ) + 1)))
      some (scatter n sorted_indices (cummin base.reverse).reverse)
    else none
  match correctedOpt with
  | none => .error (.unboundLocalError "corrected")
  | some corrected =>
      .ok {
        original_p_values := p_values
        corrected_p_values := corrected
        method := method
        significant_at_05 := corrected.map (fun c => decide (c < 5 / 100))
        significant_at_01 := corrected.map (fun c => decide (c < 1 / 100)) }

/-! ## `src/routes.py`, lines 174-252: the `compare_techniques` handler -/

/-- The confusion-matrix fields of a stored `Experiment`
(models.py / routes.py); counts are the non-negative integers of the
data model. -/
structure Experiment where
  name : String
  true_positive : ℕ
  false_positive : ℕ
  true_negative : ℕ
  false_negative : ℕ

/-- Total sample count of an experiment (routes.py lines 202-203). -/
def expTotal (e : Experiment) : ℕ :=
  e.true_positive + e.false_positive + e.true_negative + e.false_negative

/-- Length `int((count / total) * min_total)` of one synthesized stratum
(routes.py lines 209-220); `int` truncation on a nonnegative float is the
floor.  A zero `total` raises `ZeroDivisionError` in Python; the claims
only concern experiments with positive totals, where `ℚ` division agrees. -/
def stratum (count total m : ℕ) : ℕ := ⌊((count : ℚ) / (total : ℚ)) * (m : ℚ)⌋₊

/-- First synthesized rater sequence for the pair `(exp1, exp2)`
(routes.py lines 198-220): `1` for each tp- and fp-stratum slot, `0` for
each fn- and tn-stratum slot, strata sized by `exp1` proportions of the
smaller total. -/
def rater1_of (e1 e2 : Experiment) : List ℤ :=
  let t1 := expTotal e1
  let m := min t1 (expTotal e2)
  List.replicate (stratum e1.true_positive t1 m) 1 ++
    List.replicate (stratum e1.false_positive t1 m) 1 ++
    List.replicate (stratum e1.false_negative t1 m) 0 ++
    List.replicate (stratum e1.true_negative t1 m) 0

/-- Second synthesized rater sequence for the pair `(exp1, exp2)`
(routes.py lines 198-220): `1` on the tp-stratum, `0` on the fp-stratum,
`1` on the fn-stratum, `0` on the tn-stratum. -/
def rater2_of (e1 e2 : Experiment) : List ℤ :=
  let t1 := expTotal e1
  let m := min t1 (expTotal e2)
  List.replicate (stratum e1.true_positive t1 m) 1 ++
    List.replicate (stratum e1.false_positive t1 m) 0 ++
    List.replicate (stratum e1.false_negative t1 m) 1 ++
    List.replicate (stratum e1.true_negative t1 m) 0

/-- The sub-dictionary stored per comparison key
(routes.py lines 226-231). -/
structure KappaEntry where
  kappa : ℚ
  ci_lower : ℝ
  ci_upper : ℝ
  confidence_level : ℚ
  standard_error : ℝ
  interpretation : String

/-- Projection of a `KappaResult` onto the fields the route stores
(routes.py lines 226-231). -/
def entryOfKappa (kr : KappaResult) : KappaEntry :=
  { kappa := kr.kappa
    ci_lower := kr.ci_lower
    ci_upper := kr.ci_upper
    confidence_level := kr.confidence_level
    standard_error := kr.standard_error
    interpretation := kr.interpretation }

/-- Ordered pairs `(experiments[i], experiments[j])` with `i < j`, in the
order visited by the nested loops of routes.py lines 194-195. -/
def pairsOf : List Experiment → List (Experiment × Experiment)
  | [] => []
  | e :: es => es.map (fun e2 => (e, e2)) ++ pairsOf es

/-- Python dict insertion `d[k] = v`: overwrite in place if the key exists,
append otherwise. -/
def dictInsert (d : List (String × KappaEntry)) (k : String) (v : KappaEntry) :
    List (String × KappaEntry) :=
  if d.any (fun q => q.1 = k) then d.map (fun q => if q.1 = k then (k, v) else q)
  else d ++ [(k, v)]

/-- Comparison key `f"{exp1.name} vs {exp2.name}"` (routes.py line 225). -/
def comparisonKey (e1 e2 : Experiment) : String := e1.name ++ " vs " ++ e2.name

/-- The kappa-table computation of the `compare_techniques` route
(routes.py lines 192-231): for every pair `i < j`, synthesize the two
proportional rater sequences, run `calculate_cohens_kappa` with its
default confidence 0.95, and store the projected result under the
name-pair key.  The surrounding `try/except` makes any raised error abort
the whole comparison with no table, modelled by `Except` propagation. -/
noncomputable def compare_techniques (z : ℝ) (exps : List Experiment) :
    Except PyError (List (String × KappaEntry)) :=
  (pairsOf exps).foldlM
    (fun acc q => do
      let kr ← calculate_cohens_kappa (95 / 100) z (rater1_of q.1 q.2) (rater2_of q.1 q.2)
      pure (dictInsert acc (comparisonKey q.1 q.2) (entryOfKappa kr)))
    []

/-! ## Helper lemmas -/

lemma contingency_swap (a b : List ℤ) (c d : ℤ) :
    contingency b a c d = contingency a b d c := by
  unfold contingency
  rw [← List.zip_swap a b, List.countP_map]
  congr 1
  funext q
  simp [Function.comp, Bool.and_comm]

lemma categories_swap (a b : List ℤ) : categories b a = categories a b := by
  unfold categories
  rw [List.toFinset_append, List.toFinset_append, Finset.union_comm]

lemma row_eq_col (a b : List ℤ) (hlen : a.length = b.length) (c : ℤ) :
    row_marginal b a c = col_marginal a b c := by
  unfold row_marginal col_marginal
  rw [categories_swap, ← hlen]
  congr 1
  exact Finset.sum_congr rfl fun j _ => by rw [contingency_swap]

lemma col_eq_row (a b : List ℤ) (hlen : a.length = b.length) (c : ℤ) :
    col_marginal b a c = row_marginal a b c := by
  unfold row_marginal col_marginal
  rw [categories_swap, ← hlen]
  congr 1
  exact Finset.sum_congr rfl fun j _ => by rw [contingency_swap]

lemma p_obs_swap (a b : List ℤ) (hlen : a.length = b.length) :
    p_obs b a = p_obs a b := by
  unfold p_obs
  rw [categories_swap, ← hlen]
  congr 1
  exact Finset.sum_congr rfl fun c _ => by rw [contingency_swap]

lemma p_exp_swap (a b : List ℤ) (hlen : a.length = b.length) :
    p_exp b a = p_exp a b := by
  unfold p_exp
  rw [categories_swap]
  exact Finset.sum_congr rfl fun c _ => by
    rw [row_eq_col a b hlen, col_eq_row a b hlen, mul_comm]

lemma kappaFrom_swap (confidence : ℚ) (z : ℝ) (a b : List ℤ)
    (hlen : a.length = b.length) :
    kappaFrom confidence z b a = kappaFrom confidence z a b := by
  unfold kappaFrom cohen_kappa_score
  rw [p_obs_swap a b hlen, p_exp_swap a b hlen, ← hlen]

lemma p_exp_replicate (n : ℕ) (hn : 0 < n) (c : ℤ) :
    p_exp (List.replicate n c) (List.replicate n c) = 1 := by
  have hcat : categories (List.replicate n c) (List.replicate n c) = {c} := by
    unfold categories
    rw [← List.replicate_add, List.toFinset_replicate_of_ne_zero (by omega)]
  have hcont : contingency (List.replicate n c) (List.replicate n c) c c = n := by
    unfold contingency
    rw [List.zip_replicate]
    simp [List.countP_replicate]
  have hq : (n : ℚ) ≠ 0 := Nat.cast_ne_zero.mpr hn.ne'
  unfold p_exp row_marginal col_marginal
  rw [hcat]
  simp only [Finset.sum_singleton, hcont, List.length_replicate]
  field_simp

lemma wilson_core (z N p : ℝ) (hz : 0 ≤ z) (hN : 0 < N) (hp0 : 0 ≤ p) (hp1 : p ≤ 1) :
    max 0 ((p + z * z / (2 * N)) / (1 + z * z / N) -
        z * Real.sqrt ((p * (1 - p) + z * z / (4 * N)) / N) / (1 + z * z / N)) ≤ p ∧
    p ≤ min 1 ((p + z * z / (2 * N)) / (1 + z * z / N) +
        z * Real.sqrt ((p * (1 - p) + z * z / (4 * N)) / N) / (1 + z * z / N)) := by
  have hD : (0 : ℝ) < 1 + z * z / N := by positivity
  have hpq : 0 ≤ p * (1 - p) := mul_nonneg hp0 (by linarith)
  have hAN : 0 ≤ (p * (1 - p) + z * z / (4 * N)) / N := by positivity
  have hs : 0 ≤ Real.sqrt ((p * (1 - p) + z * z / (4 * N)) / N) := Real.sqrt_nonneg _
  have hstep : z * |1 - 2 * p| / (2 * N) ≤
      Real.sqrt ((p * (1 - p) + z * z / (4 * N)) / N) := by
    rw [Real.le_sqrt (by positivity) hAN]
    have expand : (p * (1 - p) + z * z / (4 * N)) / N =
        (4 * N * (p * (1 - p)) + z * z) / (4 * N ^ 2) := by
      field_simp
      ring
    rw [expand]
    have ineq : z ^ 2 * (1 - 2 * p) ^ 2 ≤ 4 * N * (p * (1 - p)) + z * z := by
      nlinarith [mul_nonneg (mul_nonneg hN.le (sq_nonneg z)) hpq,
        mul_nonneg (sq_nonneg z) hpq]
    calc (z * |1 - 2 * p| / (2 * N)) ^ 2
        = z ^ 2 * |1 - 2 * p| ^ 2 / (4 * N ^ 2) := by rw [div_pow, mul_pow]; ring
      _ = z ^ 2 * (1 - 2 * p) ^ 2 / (4 * N ^ 2) := by rw [sq_abs]
      _ ≤ (4 * N * (p * (1 - p)) + z * z) / (4 * N ^ 2) := by gcongr
  have hcenter : (p + z * z / (2 * N)) / (1 + z * z / N) - p =
      z * z * (1 - 2 * p) / (2 * N) / (1 + z * z / N) := by
    field_simp
    ring
  have habs0 : |z * z * (1 - 2 * p) / (2 * N)| = z * z * |1 - 2 * p| / (2 * N) := by
    rw [abs_div, abs_mul, abs_mul_self, abs_of_pos (by positivity : (0 : ℝ) < 2 * N)]
  have hkey : |(p + z * z / (2 * N)) / (1 + z * z / N) - p| ≤
      z * Real.sqrt ((p * (1 - p) + z * z / (4 * N)) / N) / (1 + z * z / N) := by
    rw [hcenter, abs_div, abs_of_pos hD, habs0]
    have hmul : z * z * |1 - 2 * p| / (2 * N) ≤
        z * Real.sqrt ((p * (1 - p) + z * z / (4 * N)) / N) := by
      have hrw : z * z * |1 - 2 * p| / (2 * N) = z * (z * |1 - 2 * p| / (2 * N)) := by ring
      rw [hrw]
      exact mul_le_mul_of_nonneg_left hstep hz
    gcongr
  have hlo := (abs_le.mp hkey).1
  have hhi := (abs_le.mp hkey).2
  constructor
  · apply max_le hp0
    linarith
  · apply le_min hp1
    linarith

lemma wilson_contains (z : ℝ) (hz : 0 ≤ z) (x n : ℤ) (hx : 0 ≤ x) (hxn : x ≤ n) :
    (wilson_ci z x n).1 ≤ (x : ℝ) / (n : ℝ) ∧
    (x : ℝ) / (n : ℝ) ≤ (wilson_ci z x n).2 := by
  by_cases hn : n = 0
  · subst hn
    have hx0 : x = 0 := le_antisymm hxn hx
    subst hx0
    simp [wilson_ci]
  · have hnpos : (0 : ℤ) < n := lt_of_le_of_ne (hx.trans hxn) (Ne.symm hn)
    have hN : (0 : ℝ) < (n : ℝ) := by exact_mod_cast hnpos
    have hp0 : 0 ≤ (x : ℝ) / (n : ℝ) := div_nonneg (by exact_mod_cast hx) hN.le
    have hp1 : (x : ℝ) / (n : ℝ) ≤ 1 := by
      rw [div_le_one hN]
      exact_mod_cast hxn
    have hcore := wilson_core z (n : ℝ) ((x : ℝ) / (n : ℝ)) hz hN hp0 hp1
    unfold wilson_ci
    rw [if_neg hn]
    exact hcore

lemma metric_contains (z : ℝ) (hz : 0 ≤ z) (x y : ℤ) (hx : 0 ≤ x) (hy : 0 ≤ y) :
    (wilson_ci z x (x + y)).1 ≤
        (((if x + y > 0 then (x : ℚ) / ((x : ℚ) + (y : ℚ)) else 0) : ℚ) : ℝ) ∧
    (((if x + y > 0 then (x : ℚ) / ((x : ℚ) + (y : ℚ)) else 0) : ℚ) : ℝ) ≤
        (wilson_ci z x (x + y)).2 := by
  have hxn : x ≤ x + y := by omega
  have hw := wilson_contains z hz x (x + y) hx hxn
  have hv : (((if x + y > 0 then (x : ℚ) / ((x : ℚ) + (y : ℚ)) else 0) : ℚ) : ℝ) =
      (x : ℝ) / ((x + y : ℤ) : ℝ) := by
    by_cases hc : x + y > 0
    · rw [if_pos hc]
      push_cast
      ring
    · rw [if_neg hc]
      have hx0 : x = 0 := by omega
      have hy0 : y = 0 := by omega
      subst hx0
      subst hy0
      norm_num
  rw [hv]
  exact hw

lemma sq_sub_le_prod (a b c d : ℝ) (ha : 0 ≤ a) (hb : 0 ≤ b) (hc : 0 ≤ c) (hd : 0 ≤ d) :
    (a * d - b * c) ^ 2 ≤ (a + b) * (a + c) * (d + b) * (d + c) := by
  have key : (a + b) * (a + c) * (d + b) * (d + c) - (a * d - b * c) ^ 2 =
      a ^ 2 * b * c + a ^ 2 * b * d + a ^ 2 * c * d + a * b ^ 2 * c + a * b ^ 2 * d +
        a * b * c ^ 2 + a * b * d ^ 2 + a * c ^ 2 * d + a * c * d ^ 2 + b ^ 2 * c * d +
        b * c ^ 2 * d + b * c * d ^ 2 + 4 * (a * b * c * d) := by
    ring
  have t1 : 0 ≤ a ^ 2 * b * c := mul_nonneg (mul_nonneg (sq_nonneg a) hb) hc
  have t2 : 0 ≤ a ^ 2 * b * d := mul_nonneg (mul_nonneg (sq_nonneg a) hb) hd
  have t3 : 0 ≤ a ^ 2 * c * d := mul_nonneg (mul_nonneg (sq_nonneg a) hc) hd
  have t4 : 0 ≤ a * b ^ 2 * c := mul_nonneg (mul_nonneg ha (sq_nonneg b)) hc
  have t5 : 0 ≤ a * b ^ 2 * d := mul_nonneg (mul_nonneg ha (sq_nonneg b)) hd
  have t6 : 0 ≤ a * b * c ^ 2 := mul_nonneg (mul_nonneg ha hb) (sq_nonneg c)
  have t7 : 0 ≤ a * b * d ^ 2 := mul_nonneg (mul_nonneg ha hb) (sq_nonneg d)
  have t8 : 0 ≤ a * c ^ 2 * d := mul_nonneg (mul_nonneg ha (sq_nonneg c)) hd
  have t9 : 0 ≤ a * c * d ^ 2 := mul_nonneg (mul_nonneg ha hc) (sq_nonneg d)
  have t10 : 0 ≤ b ^ 2 * c * d := mul_nonneg (mul_nonneg (sq_nonneg b) hc) hd
  have t11 : 0 ≤ b * c ^ 2 * d := mul_nonneg (mul_nonneg hb (sq_nonneg c)) hd
  have t12 : 0 ≤ b * c * d ^ 2 := mul_nonneg (mul_nonneg hb hc) (sq_nonneg d)
  have t13 : 0 ≤ 4 * (a * b * c * d) := by
    have := mul_nonneg (mul_nonneg (mul_nonneg ha hb) hc) hd
    linarith
  linarith

lemma ratio_mem_unit (x y : ℤ) (hx : 0 ≤ x) (hy : 0 ≤ y) :
    (if x + y > 0 then (x : ℚ) / ((x : ℚ) + (y : ℚ)) else 0) ∈ Set.Icc (0 : ℚ) 1 := by
  split_ifs with hc
  · have hsum : (0 : ℚ) < (x : ℚ) + (y : ℚ) := by exact_mod_cast hc
    constructor
    · exact div_nonneg (by exact_mod_cast hx) hsum.le
    · rw [div_le_one hsum]
      have : (0 : ℚ) ≤ (y : ℚ) := by exact_mod_cast hy
      linarith
  · simp

lemma p_obs_01 : p_obs [0, 1] [1, 0] = 0 := by
  have hcat : categories [0, 1] [1, 0] = {0, 1} := by decide
  unfold p_obs
  rw [hcat]
  simp only [Finset.sum_pair (show (0 : ℤ) ≠ 1 by decide)]
  have hc00 : contingency [0, 1] [1, 0] 0 0 = 0 := by decide
  have hc11 : contingency [0, 1] [1, 0] 1 1 = 0 := by decide
  simp [hc00, hc11]

lemma p_exp_01 : p_exp [0, 1] [1, 0] = 1 / 2 := by
  have hcat : categories [0, 1] [1, 0] = {0, 1} := by decide
  unfold p_exp row_marginal col_marginal
  rw [hcat]
  simp only [Finset.sum_pair (show (0 : ℤ) ≠ 1 by decide)]
  have hc00 : contingency [0, 1] [1, 0] 0 0 = 0 := by decide
  have hc01 : contingency [0, 1] [1, 0] 0 1 = 1 := by decide
  have hc10 : contingency [0, 1] [1, 0] 1 0 = 1 := by decide
  have hc11 : contingency [0, 1] [1, 0] 1 1 = 0 := by decide
  simp only [hc00, hc01, hc10, hc11, List.length_cons, List.length_nil]
  norm_num

lemma kappa_01 : cohen_kappa_score [0, 1] [1, 0] = -1 := by
  unfold cohen_kappa_score
  rw [p_obs_01, p_exp_01]
  norm_num

lemma rater_lengths_eq (e1 e2 : Experiment) :
    (rater1_of e1 e2).length = (rater2_of e1 e2).length := by
  simp [rater1_of, rater2_of]
  omega

lemma cohens_kappa_ok (confidence : ℚ) (z : ℝ) (r1 r2 : List ℤ)
    (hlen : r1.length = r2.length) (hne : r1 ≠ []) :
    calculate_cohens_kappa confidence z r1 r2 = .ok (kappaFrom confidence z r1 r2) := by
  unfold calculate_cohens_kappa
  rw [if_neg (by simp [hlen]), if_neg (by simpa [List.length_eq_zero] using hne)]

/-! ## Claims -/

/-- C1 (amended): `calculate_diagnostic_stats` raises its validation
`ValueError` exactly when the four counts sum to zero, and for every four
non-negative counts with positive sum it raises no error; the code
performs no negative-count check. -/
theorem C1_validation_amended (confidence : ℚ) (z : ℝ) (tp fp tn fn : ℤ) :
    (tp + fp + tn + fn = 0 →
      calculate_diagnostic_stats confidence z tp fp tn fn =
        .error (.valueError "All confusion matrix values cannot be zero")) ∧
    (0 ≤ tp → 0 ≤ fp → 0 ≤ tn → 0 ≤ fn → 0 < tp + fp + tn + fn →
      ∃ r, calculate_diagnostic_stats confidence z tp fp tn fn = .ok r) := by
  constructor
  · intro h
    unfold calculate_diagnostic_stats
    rw [if_pos h]
  · intro _ _ _ _ h5
    unfold calculate_diagnostic_stats
    rw [if_neg (by omega)]
    exact ⟨_, rfl⟩

/-- C1 counterexample: the call with counts `(0, 0, 0, -1)` has a negative
count, yet it passes validation and returns a result instead of failing
with the validation error, refuting the sentence that every call with a
negative count fails with `InvalidInputError` before any computation. -/
theorem C1_negative_not_rejected :
    (calculate_diagnostic_stats (95 / 100) 0 0 0 0 (-1)).isOk = true := by
  rfl

/-- C1 witness: the amended claim evaluated at the all-zero input and at
the non-negative input `(85, 3, 92, 5)`. -/
theorem C1_validation_witness :
    calculate_diagnostic_stats (95 / 100) 0 0 0 0 0 =
      .error (.valueError "All confusion matrix values cannot be zero") ∧
    ∃ r, calculate_diagnostic_stats (95 / 100) 0 85 3 92 5 = .ok r :=
  ⟨(C1_validation_amended (95 / 100) 0 0 0 0 0).1 (by norm_num),
    (C1_validation_amended (95 / 100) 0 85 3 92 5).2 (by norm_num) (by norm_num)
      (by norm_num) (by norm_num) (by norm_num)⟩

/-- C3 counterexample: for the unknown method `"hochberg"` the correction
function does not fail with the validation `ValueError` of the spec; the
`if/elif` chain has no `else`, so the call fails only at the final result
construction with `UnboundLocalError` on the never-assigned local
`corrected`. -/
theorem C3_unknown_method_counterexample :
    calculate_multiple_comparisons_correction [1 / 2] "hochberg" =
      .error (.unboundLocalError "corrected") := by
  rfl

/-- C3 (amended): an unknown correction method (anything other than
`"bonferroni"`, `"holm"`, `"fdr_bh"`) is not caught by any validation at
the start of the call; the call fails with `UnboundLocalError` on the
unassigned local `corrected` when the result dictionary is built, and no
corrected p-values are produced. -/
theorem C3_unknown_method_amended (ps : List ℚ) (method : String)
    (h1 : method ≠ "bonferroni") (h2 : method ≠ "holm") (h3 : method ≠ "fdr_bh") :
    calculate_multiple_comparisons_correction ps method =
      .error (.unboundLocalError "corrected") := by
  simp only [calculate_multiple_comparisons_correction, if_neg h1, if_neg h2, if_neg h3]

/-- C3 witness: the amended claim evaluated at `[0.5]` with the unknown
method `"fdr_by"`. -/
theorem C3_unknown_method_witness :
    calculate_multiple_comparisons_correction [1 / 2] "fdr_by" =
      .error (.unboundLocalError "corrected") :=
  C3_unknown_method_amended [1 / 2] "fdr_by" (by decide) (by decide) (by decide)

/-- C9: under `"bonferroni"` each p-value `p` of an `n`-element input is
mapped to `min (p * n) 1`, preserving order and length, and
`[0.01, 0.02, 0.03]` is corrected to exactly `[0.03, 0.06, 0.09]`. -/
theorem C9_bonferroni :
    (∀ ps : List ℚ, ∃ r,
      calculate_multiple_comparisons_correction ps "bonferroni" = .ok r ∧
      r.corrected_p_values = ps.map (fun p => min (p * (ps.length : ℚ)) 1) ∧
      r.corrected_p_values.length = ps.length) ∧
    (∃ r, calculate_multiple_comparisons_correction [1 / 100, 2 / 100, 3 / 100]
        "bonferroni" = .ok r ∧
      r.corrected_p_values = [3 / 100, 6 / 100, 9 / 100]) := by
  constructor
  · intro ps
    refine ⟨_, rfl, rfl, ?_⟩
    exact List.length_map ps _
  · refine ⟨_, rfl, ?_⟩
    norm_num [min_def]

/-- C10: the experiments `A = (tp 1, fp 1, tn 1, fn 1)` (total 4) and
`B = (tp 1, fp 0, tn 0, fn 0)` (total 1) both have positive totals, yet
every stratum length `floor(proportion * minTotal)` is zero, so the
synthesized rater sequences are empty and the pairwise comparison fails
with the empty-input error instead of producing a kappa entry. -/
theorem C10_zero_length_synthesis :
    0 < expTotal ⟨"A", 1, 1, 1, 1⟩ ∧ 0 < expTotal ⟨"B", 1, 0, 0, 0⟩ ∧
    rater1_of ⟨"A", 1, 1, 1, 1⟩ ⟨"B", 1, 0, 0, 0⟩ = [] ∧
    rater2_of ⟨"A", 1, 1, 1, 1⟩ ⟨"B", 1, 0, 0, 0⟩ = [] ∧
    compare_techniques 0 [⟨"A", 1, 1, 1, 1⟩, ⟨"B", 1, 0, 0, 0⟩] =
      .error (.valueError "Rater arrays cannot be empty") := by
  have h1 : rater1_of ⟨"A", 1, 1, 1, 1⟩ ⟨"B", 1, 0, 0, 0⟩ = [] := by
    simp [rater1_of, stratum, expTotal, Nat.floor_eq_zero]; norm_num
  have h2 : rater2_of ⟨"A", 1, 1, 1, 1⟩ ⟨"B", 1, 0, 0, 0⟩ = [] := by
    simp [rater2_of, stratum, expTotal, Nat.floor_eq_zero]; norm_num
  refine ⟨by decide, by decide, h1, h2, ?_⟩
  simp only [compare_techniques, pairsOf, List.map_cons, List.map_nil, List.nil_append,
    List.append_nil, List.cons_append, List.foldlM_cons, List.foldlM_nil, h1, h2]
  rfl

/-- C4 counterexample: for the three experiments `A = (1,1,1,1)`,
`B = (1,0,0,0)`, `C = (1,1,1,1)` - all with positive confusion-matrix
totals - the comparison does not produce a three-entry kappa table: the
pair `(A, B)` synthesizes empty rater sequences and the whole call fails
with the empty-input error. -/
theorem C4_counterexample :
    compare_techniques 0
        [⟨"A", 1, 1, 1, 1⟩, ⟨"B", 1, 0, 0, 0⟩, ⟨"C", 1, 1, 1, 1⟩] =
      .error (.valueError "Rater arrays cannot be empty") := by
  have h1 : rater1_of ⟨"A", 1, 1, 1, 1⟩ ⟨"B", 1, 0, 0, 0⟩ = [] := by
    simp [rater1_of, stratum, expTotal, Nat.floor_eq_zero]; norm_num
  have h2 : rater2_of ⟨"A", 1, 1, 1, 1⟩ ⟨"B", 1, 0, 0, 0⟩ = [] := by
    simp [rater2_of, stratum, expTotal, Nat.floor_eq_zero]; norm_num
  simp only [compare_techniques, pairsOf, List.map_cons, List.map_nil, List.nil_append,
    List.append_nil, List.cons_append, List.foldlM_cons, List.foldlM_nil, h1, h2]
  rfl

/-- C6: `calculate_cohens_kappa` is symmetric in its two rater sequences:
for equal-length non-empty sequences the whole result record (kappa,
observed and expected agreement, standard error, confidence interval,
interpretation, sample size) is identical under swapping the raters. -/
theorem C6_symmetry (confidence : ℚ) (z : ℝ) (a b : List ℤ)
    (hlen : a.length = b.length) (hne : a ≠ []) :
    calculate_cohens_kappa confidence z a b =
      calculate_cohens_kappa confidence z b a := by
  have h3 : ¬ (a.length = 0) := by simpa [List.length_eq_zero] using hne
  have h4 : ¬ (b.length = 0) := by rw [← hlen]; exact h3
  unfold calculate_cohens_kappa
  rw [if_neg (show ¬ (a.length ≠ b.length) by simp [hlen]), if_neg h3,
    if_neg (show ¬ (b.length ≠ a.length) by simp [hlen]), if_neg h4,
    kappaFrom_swap confidence z a b hlen]

/-- C6 witness: the symmetry applied to the concrete pair
`[0, 1]`, `[1, 1]`. -/
theorem C6_symmetry_witness :
    calculate_cohens_kappa (95 / 100) 0 [0, 1] [1, 1] =
      calculate_cohens_kappa (95 / 100) 0 [1, 1] [0, 1] :=
  C6_symmetry (95 / 100) 0 [0, 1] [1, 1] rfl (by decide)

/-- C8: on a pair of identical constant sequences the expected agreement
is 1, the guarded division branch is not taken, and the returned standard
error is 0; the call succeeds with no division error. -/
theorem C8_perfect_agreement (confidence : ℚ) (z : ℝ) (n : ℕ) (c : ℤ) (hn : 0 < n) :
    ∃ r, calculate_cohens_kappa confidence z (List.replicate n c) (List.replicate n c) =
        .ok r ∧ r.expected_agreement = 1 ∧ r.standard_error = 0 := by
  have hpe := p_exp_replicate n hn c
  refine ⟨kappaFrom confidence z (List.replicate n c) (List.replicate n c), ?_, ?_, ?_⟩
  · unfold calculate_cohens_kappa
    rw [if_neg (by simp), if_neg (by simp [List.length_replicate]; omega)]
  · simpa [kappaFrom] using hpe
  · simp [kappaFrom, hpe]

/-- C8 witness: the perfect-agreement case at the concrete constant pair
`[0, 0]`, `[0, 0]`. -/
theorem C8_perfect_agreement_witness :
    ∃ r, calculate_cohens_kappa (95 / 100) 0 (List.replicate 2 0) (List.replicate 2 0) =
        .ok r ∧ r.expected_agreement = 1 ∧ r.standard_error = 0 :=
  C8_perfect_agreement (95 / 100) 0 2 0 (by norm_num)

/-- C2: for every four non-negative counts with positive sum the call
succeeds and the returned sensitivity, specificity, ppv, npv, accuracy and
prevalence values lie in `[0, 1]` while mcc lies in `[-1, 1]`. -/
theorem C2_metric_ranges (confidence : ℚ) (z : ℝ)
    (tp fp tn fn : ℤ) (h1 : 0 ≤ tp) (h2 : 0 ≤ fp) (h3 : 0 ≤ tn) (h4 : 0 ≤ fn)
    (h5 : 0 < tp + fp + tn + fn) :
    ∃ r, calculate_diagnostic_stats confidence z tp fp tn fn = .ok r ∧
      r.sensitivity.value ∈ Set.Icc (0 : ℚ) 1 ∧
      r.specificity.value ∈ Set.Icc (0 : ℚ) 1 ∧
      r.ppv.value ∈ Set.Icc (0 : ℚ) 1 ∧
      r.npv.value ∈ Set.Icc (0 : ℚ) 1 ∧
      r.accuracy.value ∈ Set.Icc (0 : ℚ) 1 ∧
      r.prevalence_value ∈ Set.Icc (0 : ℚ) 1 ∧
      r.mcc ∈ Set.Icc (-1 : ℝ) 1 := by
  have htotq : (0 : ℚ) < ((tp + fp + tn + fn : ℤ) : ℚ) := by exact_mod_cast h5
  unfold calculate_diagnostic_stats
  rw [if_neg (by omega)]
  refine ⟨_, rfl, ?_, ?_, ?_, ?_, ?_, ?_, ?_⟩ <;> dsimp only
  · exact ratio_mem_unit tp fn h1 h4
  · exact ratio_mem_unit tn fp h3 h2
  · exact ratio_mem_unit tp fp h1 h2
  · exact ratio_mem_unit tn fn h3 h4
  · constructor
    · apply div_nonneg ?_ htotq.le
      have ha : (0 : ℚ) ≤ (tp : ℚ) := by exact_mod_cast h1
      have hb : (0 : ℚ) ≤ (tn : ℚ) := by exact_mod_cast h3
      linarith
    · rw [div_le_one htotq]
      push_cast
      have ha : (0 : ℚ) ≤ (fp : ℚ) := by exact_mod_cast h2
      have hb : (0 : ℚ) ≤ (fn : ℚ) := by exact_mod_cast h4
      linarith
  · constructor
    · apply div_nonneg ?_ htotq.le
      have ha : (0 : ℚ) ≤ (tp : ℚ) := by exact_mod_cast h1
      have hb : (0 : ℚ) ≤ (fn : ℚ) := by exact_mod_cast h4
      linarith
    · rw [div_le_one htotq]
      push_cast
      have ha : (0 : ℚ) ≤ (fp : ℚ) := by exact_mod_cast h2
      have hb : (0 : ℚ) ≤ (tn : ℚ) := by exact_mod_cast h3
      linarith
  · split_ifs with hd
    · have hPz : (0 : ℤ) ≤ (tp + fp) * (tp + fn) * (tn + fp) * (tn + fn) :=
        mul_nonneg (mul_nonneg (mul_nonneg
          (by omega : (0 : ℤ) ≤ tp + fp) (by omega : (0 : ℤ) ≤ tp + fn))
          (by omega : (0 : ℤ) ≤ tn + fp)) (by omega : (0 : ℤ) ≤ tn + fn)
      have hnum : (((tp * tn - fp * fn : ℤ) : ℝ)) ^ 2 ≤
          (((tp + fp) * (tp + fn) * (tn + fp) * (tn + fn) : ℤ) : ℝ) := by
        push_cast
        have hcast : ∀ w : ℤ, 0 ≤ w → (0 : ℝ) ≤ (w : ℝ) := fun w hw => by exact_mod_cast hw
        exact sq_sub_le_prod (tp : ℝ) (fp : ℝ) (fn : ℝ) (tn : ℝ)
          (hcast tp h1) (hcast fp h2) (hcast fn h4) (hcast tn h3)
      have habs : |((tp * tn - fp * fn : ℤ) : ℝ)| ≤
          Real.sqrt (((tp + fp) * (tp + fn) * (tn + fp) * (tn + fn) : ℤ) : ℝ) := by
        rw [← Real.sqrt_sq_eq_abs]
        exact Real.sqrt_le_sqrt hnum
      obtain ⟨hlo, hhi⟩ := abs_le.mp habs
      constructor
      · rw [le_div_iff₀ hd]
        linarith
      · rw [div_le_one hd]
        linarith
    · norm_num

/-- C2 witness: the ranges at the concrete input `(85, 3, 92, 5)`. -/
theorem C2_metric_ranges_witness :
    ∃ r, calculate_diagnostic_stats (95 / 100) 0 85 3 92 5 = .ok r ∧
      r.sensitivity.value ∈ Set.Icc (0 : ℚ) 1 ∧
      r.specificity.value ∈ Set.Icc (0 : ℚ) 1 ∧
      r.ppv.value ∈ Set.Icc (0 : ℚ) 1 ∧
      r.npv.value ∈ Set.Icc (0 : ℚ) 1 ∧
      r.accuracy.value ∈ Set.Icc (0 : ℚ) 1 ∧
      r.prevalence_value ∈ Set.Icc (0 : ℚ) 1 ∧
      r.mcc ∈ Set.Icc (-1 : ℝ) 1 :=
  C2_metric_ranges (95 / 100) 0 85 3 92 5 (by norm_num) (by norm_num) (by norm_num)
    (by norm_num) (by norm_num)

/-- C5: for every four non-negative counts with positive sum and every
non-negative normal quantile, each of the five Wilson confidence intervals
contains its point estimate (the `n = 0` case yields the interval `(0, 0)`
around the defaulted value `0`). -/
theorem C5_wilson_contains_point (confidence : ℚ) (z : ℝ) (hz : 0 ≤ z)
    (tp fp tn fn : ℤ) (h1 : 0 ≤ tp) (h2 : 0 ≤ fp) (h3 : 0 ≤ tn) (h4 : 0 ≤ fn)
    (h5 : 0 < tp + fp + tn + fn) :
    ∃ r, calculate_diagnostic_stats confidence z tp fp tn fn = .ok r ∧
      (r.sensitivity.ci_lower ≤ (r.sensitivity.value : ℝ) ∧
        (r.sensitivity.value : ℝ) ≤ r.sensitivity.ci_upper) ∧
      (r.specificity.ci_lower ≤ (r.specificity.value : ℝ) ∧
        (r.specificity.value : ℝ) ≤ r.specificity.ci_upper) ∧
      (r.ppv.ci_lower ≤ (r.ppv.value : ℝ) ∧
        (r.ppv.value : ℝ) ≤ r.ppv.ci_upper) ∧
      (r.npv.ci_lower ≤ (r.npv.value : ℝ) ∧
        (r.npv.value : ℝ) ≤ r.npv.ci_upper) ∧
      (r.accuracy.ci_lower ≤ (r.accuracy.value : ℝ) ∧
        (r.accuracy.value : ℝ) ≤ r.accuracy.ci_upper) := by
  unfold calculate_diagnostic_stats
  rw [if_neg (by omega)]
  refine ⟨_, rfl, ?_, ?_, ?_, ?_, ?_⟩ <;> dsimp only
  · exact metric_contains z hz tp fn h1 h4
  · exact metric_contains z hz tn fp h3 h2
  · exact metric_contains z hz tp fp h1 h2
  · exact metric_contains z hz tn fn h3 h4
  · have hw := wilson_contains z hz (tp + tn) (tp + fp + tn + fn) (by omega) (by omega)
    have hv : ((((tp : ℚ) + (tn : ℚ)) / ((tp + fp + tn + fn : ℤ) : ℚ) : ℚ) : ℝ) =
        ((tp + tn : ℤ) : ℝ) / ((tp + fp + tn + fn : ℤ) : ℝ) := by
      push_cast
      ring
    rw [hv]
    exact hw

/-- C5 witness: the containment at the concrete input `(85, 3, 92, 5)`
with quantile 0. -/
theorem C5_wilson_contains_point_witness :
    ∃ r, calculate_diagnostic_stats (95 / 100) 0 85 3 92 5 = .ok r ∧
      (r.sensitivity.ci_lower ≤ (r.sensitivity.value : ℝ) ∧
        (r.sensitivity.value : ℝ) ≤ r.sensitivity.ci_upper) ∧
      (r.specificity.ci_lower ≤ (r.specificity.value : ℝ) ∧
        (r.specificity.value : ℝ) ≤ r.specificity.ci_upper) ∧
      (r.ppv.ci_lower ≤ (r.ppv.value : ℝ) ∧
        (r.ppv.value : ℝ) ≤ r.ppv.ci_upper) ∧
      (r.npv.ci_lower ≤ (r.npv.value : ℝ) ∧
        (r.npv.value : ℝ) ≤ r.npv.ci_upper) ∧
      (r.accuracy.ci_lower ≤ (r.accuracy.value : ℝ) ∧
        (r.accuracy.value : ℝ) ≤ r.accuracy.ci_upper) :=
  C5_wilson_contains_point (95 / 100) 0 le_rfl 85 3 92 5 (by norm_num) (by norm_num)
    (by norm_num) (by norm_num) (by norm_num)

/-- C7: in `calculate_cohens_kappa` the interval is `kappa ± z * SE` with
the upper bound capped at 1.0 and the lower bound not capped (at
`[0, 1]` vs `[1, 0]` with quantile 1 the lower bound is -2 < -1), while
the single-matrix kappa proxy of `calculate_diagnostic_stats` clips its
interval to `[-1, 1]` on both sides. -/
theorem C7_ci_caps :
    (∀ (confidence : ℚ) (z : ℝ) (r1 r2 : List ℤ) (r : KappaResult),
        calculate_cohens_kappa confidence z r1 r2 = .ok r →
        r.ci_upper = min 1 ((r.kappa : ℝ) + z * r.standard_error) ∧
        r.ci_lower = (r.kappa : ℝ) - z * r.standard_error) ∧
    (∃ r, calculate_cohens_kappa (95 / 100) 1 [0, 1] [1, 0] = .ok r ∧
        r.ci_lower < -1) ∧
    (∀ (confidence : ℚ) (z : ℝ) (tp fp tn fn : ℤ) (d : DiagStats),
        calculate_diagnostic_stats confidence z tp fp tn fn = .ok d →
        -1 ≤ d.kappa_ci_lower ∧ d.kappa_ci_upper ≤ 1) := by
  refine ⟨?_, ?_, ?_⟩
  · intro confidence z r1 r2 r heq
    unfold calculate_cohens_kappa at heq
    by_cases h1 : r1.length ≠ r2.length
    · rw [if_pos h1] at heq; exact absurd heq (by simp)
    · rw [if_neg h1] at heq
      by_cases h2 : r1.length = 0
      · rw [if_pos h2] at heq; exact absurd heq (by simp)
      · rw [if_neg h2] at heq
        have hr : kappaFrom confidence z r1 r2 = r := by
          injection heq
        subst hr
        exact ⟨rfl, rfl⟩
  · refine ⟨kappaFrom (95 / 100) 1 [0, 1] [1, 0], rfl, ?_⟩
    have hse : (kappaFrom (95 / 100) 1 [0, 1] [1, 0]).standard_error = 1 := by
      simp only [kappaFrom, p_exp_01]
      rw [if_neg (by norm_num)]
      have harg : (((1 : ℚ) / 2 : ℚ) : ℝ) /
          ((([0, 1] : List ℤ).length : ℝ) * ((1 : ℝ) - (((1 : ℚ) / 2 : ℚ) : ℝ)) ^ 2) = 1 := by
        push_cast
        norm_num
      rw [harg, Real.sqrt_one]
    have hlow : (kappaFrom (95 / 100) 1 [0, 1] [1, 0]).ci_lower =
        ((kappaFrom (95 / 100) 1 [0, 1] [1, 0]).kappa : ℝ) -
          1 * (kappaFrom (95 / 100) 1 [0, 1] [1, 0]).standard_error := rfl
    rw [hlow, hse]
    have hk : (kappaFrom (95 / 100) 1 [0, 1] [1, 0]).kappa = -1 := by
      simp only [kappaFrom]
      exact kappa_01
    rw [hk]
    norm_num
  · intro confidence z tp fp tn fn d heq
    unfold calculate_diagnostic_stats at heq
    by_cases h0 : tp + fp + tn + fn = 0
    · rw [if_pos h0] at heq; exact absurd heq (by simp)
    · rw [if_neg h0] at heq
      dsimp only at heq
      injection heq with hd
      subst hd
      constructor <;> dsimp only <;> split_ifs <;>
        first
          | exact le_max_left _ _
          | exact min_le_left _ _
          | norm_num

/-- C7 witness: the two universally quantified parts applied at the
concrete kappa call `([0, 1], [1, 0])` with quantile 1 and the concrete
diagnostic call `(1, 1, 1, 1)`. -/
theorem C7_ci_caps_witness :
    (∃ r, calculate_cohens_kappa (95 / 100) 1 [0, 1] [1, 0] = .ok r ∧
      r.ci_upper = min 1 ((r.kappa : ℝ) + 1 * r.standard_error) ∧
      r.ci_lower = (r.kappa : ℝ) - 1 * r.standard_error) ∧
    (∃ d, calculate_diagnostic_stats (95 / 100) 0 1 1 1 1 = .ok d ∧
      -1 ≤ d.kappa_ci_lower ∧ d.kappa_ci_upper ≤ 1) := by
  obtain ⟨p1, p2, p3⟩ := C7_ci_caps
  constructor
  · exact ⟨kappaFrom (95 / 100) 1 [0, 1] [1, 0], rfl,
      p1 (95 / 100) 1 [0, 1] [1, 0] _ rfl⟩
  · have hok : ∃ d, calculate_diagnostic_stats (95 / 100) 0 1 1 1 1 = .ok d := by
      unfold calculate_diagnostic_stats
      rw [if_neg (by norm_num)]
      exact ⟨_, rfl⟩
    obtain ⟨d, hd⟩ := hok
    exact ⟨d, hd, p3 (95 / 100) 0 1 1 1 1 d hd⟩

/-- C4 (amended): for three experiments whose three comparison keys are
pairwise distinct and whose three pairwise proportional syntheses each
produce at least one observation, the comparison succeeds and the kappa
table has exactly C(3,2) = 3 entries, one per unordered pair, keyed by the
name pairs, with no duplicate keys. -/
theorem C4_pairwise_entries_amended (z : ℝ) (e1 e2 e3 : Experiment)
    (hk1 : comparisonKey e1 e2 ≠ comparisonKey e1 e3)
    (hk2 : comparisonKey e1 e2 ≠ comparisonKey e2 e3)
    (hk3 : comparisonKey e1 e3 ≠ comparisonKey e2 e3)
    (hne1 : rater1_of e1 e2 ≠ [])
    (hne2 : rater1_of e1 e3 ≠ [])
    (hne3 : rater1_of e2 e3 ≠ []) :
    ∃ t, compare_techniques z [e1, e2, e3] = .ok t ∧
      t.map Prod.fst =
        [comparisonKey e1 e2, comparisonKey e1 e3, comparisonKey e2 e3] ∧
      t.length = 3 ∧ (t.map Prod.fst).Nodup := by
  have h12 := cohens_kappa_ok (95 / 100) z _ _ (rater_lengths_eq e1 e2) hne1
  have h13 := cohens_kappa_ok (95 / 100) z _ _ (rater_lengths_eq e1 e3) hne2
  have h23 := cohens_kappa_ok (95 / 100) z _ _ (rater_lengths_eq e2 e3) hne3
  have hrun : compare_techniques z [e1, e2, e3] = .ok
      [(comparisonKey e1 e2,
          entryOfKappa (kappaFrom (95 / 100) z (rater1_of e1 e2) (rater2_of e1 e2))),
        (comparisonKey e1 e3,
          entryOfKappa (kappaFrom (95 / 100) z (rater1_of e1 e3) (rater2_of e1 e3))),
        (comparisonKey e2 e3,
          entryOfKappa (kappaFrom (95 / 100) z (rater1_of e2 e3) (rater2_of e2 e3)))] := by
    have hbind : ∀ {α β : Type} (a : α) (f : α → Except PyError β),
        (Except.ok a >>= f) = f a := fun a f => rfl
    have hpure : ∀ {α : Type} (a : α), (pure a : Except PyError α) = Except.ok a :=
      fun a => rfl
    simp only [compare_techniques, pairsOf, List.map_cons, List.map_nil, List.nil_append,
      List.append_nil, List.cons_append, List.foldlM_cons, List.foldlM_nil, h12, h13, h23,
      hbind, hpure]
    simp [dictInsert, hk1, hk2, hk3]
  refine ⟨_, hrun, by simp, by simp, ?_⟩
  simp [hk1, hk2, hk3]

/-- C4 witness: the amended claim at three concrete experiments named
`A`, `B`, `C`, each with confusion matrix `(1, 1, 1, 1)`. -/
theorem C4_pairwise_entries_witness :
    ∃ t, compare_techniques 0
        [⟨"A", 1, 1, 1, 1⟩, ⟨"B", 1, 1, 1, 1⟩, ⟨"C", 1, 1, 1, 1⟩] = .ok t ∧
      t.map Prod.fst = ["A vs B", "A vs C", "B vs C"] ∧
      t.length = 3 ∧ (t.map Prod.fst).Nodup := by
  have hst : stratum 1 4 4 = 1 := by
    unfold stratum
    norm_num
  have hne : ∀ n1 n2 : String,
      rater1_of ⟨n1, 1, 1, 1, 1⟩ ⟨n2, 1, 1, 1, 1⟩ ≠ [] := by
    intro n1 n2
    simp [rater1_of, expTotal, hst]
  have h := C4_pairwise_entries_amended 0 ⟨"A", 1, 1, 1, 1⟩ ⟨"B", 1, 1, 1, 1⟩
    ⟨"C", 1, 1, 1, 1⟩ (by decide) (by decide) (by decide)
    (hne "A" "B") (hne "A" "C") (hne "B" "C")
  simpa [comparisonKey] using h

end BioAmplify
